import Mathlib

/-!
Verification development for the comparative benchmark harness
`benchmark_compare.js` (MSVC- vs ClangCL-built Node.js binaries).

The harness's pure core is shallowly embedded here:

* JavaScript numbers (IEEE-754 doubles) are modelled by exact rationals `ℚ`;
  every computation a claim evaluates is exact, so no rounding artifacts are
  relevant.  The one non-finite double the statistics code can produce, `NaN`,
  is modelled by a dedicated constructor of `JSVal`.
* `Array.prototype.sort` with the numeric comparator is modelled by
  `List.insertionSort (· ≤ ·)`: its output is the ascending sorted permutation
  of the input, which for rational values determines it uniquely.
* Subprocess execution is modelled by passing in the outcomes of the
  invocations explicitly (see `RunResult`, `runBothTimed`, `startupSamples`).
-/

namespace BenchmarkCompare

/-- A JavaScript number as produced by the statistics helpers: either an
ordinary (finite) value, modelled exactly by a rational, or the IEEE `NaN`.
(Signed zeros collapse to `num 0`; the sign of zero is never observable in
the embedded code paths.) -/
inductive JSVal where
  | num (q : ℚ)
  | nan
deriving DecidableEq, Repr

/-! ### Statistics engine (`median`, `mean`, `stddev`, source lines 24–37) -/

/-- The index/averaging step of `median` applied to the already-sorted array:
`sorted.length % 2 ? sorted[mid] : (sorted[mid - 1] + sorted[mid]) / 2` with
`mid = Math.floor(sorted.length / 2)`.  Out-of-range JavaScript indexing
yields `undefined`, and `undefined` arithmetic yields `NaN`; both out-of-range
accesses happen only for the empty array (where `mid - 1` is `-1`, and natural
subtraction in the model also lands on a vacant index). -/
def medianOfSorted (s : List ℚ) : JSVal :=
  if s.length % 2 = 1 then
    match s[s.length / 2]? with
    | some v => JSVal.num v
    | none => JSVal.nan
  else
    match s[s.length / 2 - 1]?, s[s.length / 2]? with
    | some a, some b => JSVal.num ((a + b) / 2)
    | _, _ => JSVal.nan

/-- `median(arr)` from the source: copy, sort ascending with the numeric
comparator, then pick the middle element (odd length) or average the two
middle elements (even length). -/
def median (arr : List ℚ) : JSVal :=
  medianOfSorted (List.insertionSort (· ≤ ·) arr)

/-- `mean(arr) = arr.reduce((a, b) => a + b, 0) / arr.length`.  For the empty
array the fold returns its initial value `0` and JavaScript computes
`0 / 0 = NaN`. -/
def mean (arr : List ℚ) : JSVal :=
  if arr.length = 0 then JSVal.nan else JSVal.num (arr.sum / (arr.length : ℚ))

/-- `arr.reduce((sum, v) => sum + (v - m) ** 2, 0)`: the sum of squared
deviations from `m`. -/
def sumSqDev (arr : List ℚ) (m : ℚ) : ℚ :=
  (arr.map (fun v => (v - m) ^ 2)).sum

/-- Division as it occurs inside `stddev`.  IEEE division by zero gives `NaN`
when the numerator is also zero (the only case the embedded code reaches: the
zero denominator arises exactly for a one-element array, where the numerator
is the single deviation `(v - mean [v])^2 = 0`). -/
def jsDiv0 (a b : ℚ) : JSVal :=
  if b = 0 then JSVal.nan else JSVal.num (a / b)

/-- The radicand of `stddev`:
`arr.reduce((sum, v) => sum + (v - m) ** 2, 0) / (arr.length - 1)` where
`m = mean(arr)`.  When `mean` is `NaN` (empty array) no element is ever
combined with it, so the fold still returns `0`, and the denominator is
`0 - 1 = -1`; JavaScript then computes `0 / -1 = -0`. -/
def variance (arr : List ℚ) : JSVal :=
  match mean arr with
  | JSVal.num m => jsDiv0 (sumSqDev arr m) ((arr.length : ℚ) - 1)
  | JSVal.nan => jsDiv0 0 ((arr.length : ℚ) - 1)

/-- `Math.sqrt`: maps `NaN` and negative arguments to `NaN`.  On the
non-negative rationals we use `Rat.sqrt`, which is exact on perfect squares;
every input at which this development evaluates `stddev` has radicand `0` or
`NaN`, where the model agrees with `Math.sqrt` exactly. -/
def jsSqrt : JSVal → JSVal
  | JSVal.nan => JSVal.nan
  | JSVal.num q => if q < 0 then JSVal.nan else JSVal.num (Rat.sqrt q)

/-- `stddev(arr) = Math.sqrt(arr.reduce((sum, v) => sum + (v - m) ** 2, 0)
/ (arr.length - 1))` with `m = mean(arr)`. -/
def stddev (arr : List ℚ) : JSVal :=
  jsSqrt (variance arr)

/-! ### Percentage formatting (`pctDiff`, source lines 49–53) -/

/-- `Number.prototype.toFixed(2)` for a non-negative exact rational: choose
the integer `n` minimising `|n / 100 - q|`, ties to the larger `n`
(round half up), and print `n` with two decimal digits. -/
def toFixed2Abs (q : ℚ) : String :=
  (Int.toNat ⌊q * 100 + 1 / 2⌋ / 100).repr ++ "." ++
    (if Int.toNat ⌊q * 100 + 1 / 2⌋ % 100 < 10 then "0" else "") ++
    (Int.toNat ⌊q * 100 + 1 / 2⌋ % 100).repr

/-- `q.toFixed(2)`: negative inputs print a leading minus sign followed by the
rendering of the absolute value. -/
def toFixed2 (q : ℚ) : String :=
  if q < 0 then "-" ++ toFixed2Abs (-q) else toFixed2Abs q

/-- `pctDiff(msvc, clang)`: `diff = ((clang - msvc) / msvc) * 100`, with an
explicit leading plus sign exactly when `diff > 0`, two decimal places, and a
trailing percent sign.  (JavaScript would print `NaN%` when `msvc = 0`; the
rational model's division by zero yields `0` there instead, and the theorems
about this function assume a non-zero baseline.) -/
def pctDiff (msvc clang : ℚ) : String :=
  (if ((clang - msvc) / msvc) * 100 > 0 then "+" else "") ++
    toFixed2 (((clang - msvc) / msvc) * 100) ++ "%"

/-- Modelled from the spec: the formatting rule the spec states for
`percentDiff` applied to a given value, namely an explicit leading plus sign
exactly when the value is positive, two decimal places, and a percent sign. -/
def specSignedPercent (d : ℚ) : String :=
  (if 0 < d then "+" else "") ++ toFixed2 d ++ "%"

/-! ### Winner adjudicator (`winner`, source lines 55–61) -/

/-- `winner(msvcVal, clangVal, lowerIsBetter, msvcStd, clangStd)`: the noise
gate returns the string `~Tie` when some reported deviation is positive and
the observed gap is below the larger deviation; otherwise the directional
comparison picks `MSVC`, `ClangCL`, or (on exact equality) `Tie`. -/
def winner (msvcVal clangVal : ℚ) (lowerIsBetter : Bool) (msvcStd clangStd : ℚ) :
    String :=
  if (msvcStd > 0 ∨ clangStd > 0) ∧ |msvcVal - clangVal| < max msvcStd clangStd then
    "~Tie"
  else if lowerIsBetter then
    if msvcVal < clangVal then "MSVC" else if msvcVal > clangVal then "ClangCL" else "Tie"
  else
    if msvcVal > clangVal then "MSVC" else if msvcVal < clangVal then "ClangCL" else "Tie"

/-- The spec's abstract three-way verdict; candidate A is the MSVC binary and
candidate B the ClangCL binary. -/
inductive Verdict where
  | A
  | B
  | Tie
deriving DecidableEq, Repr

/-- Abstraction of the per-metric verdict strings: `MSVC` denotes candidate A,
`ClangCL` candidate B, and every other string (both `Tie` and the noise-gate
`~Tie`) the tie verdict — exactly how the aggregation loop classifies them. -/
def toVerdict (s : String) : Verdict :=
  if s == "MSVC" then Verdict.A else if s == "ClangCL" then Verdict.B else Verdict.Tie

/-! ### Trial runner and sampling controller (source lines 63–90, 110–120) -/

/-- The record returned by `runTimed`: elapsed wall-clock milliseconds, the
captured output streams, and the subprocess exit status (`none` models the
`null` status of a process killed on timeout). -/
structure RunResult where
  durationMs : ℚ
  stdout : String
  stderr : String
  status : Option ℤ
deriving DecidableEq, Repr

/-- The two candidate binaries. -/
inductive Candidate where
  | msvc
  | clang
deriving DecidableEq, Repr

/-- The pair assembled by `runBothTimed`: the `msvc` field for the MSVC
binary's run, the `clang` field for the ClangCL binary's run. -/
structure PairedRun where
  msvc : RunResult
  clang : RunResult
deriving DecidableEq, Repr

/-- `runBothTimed(args)`: flip a coin (`coin` models `Math.random() < 0.5`);
on heads run the MSVC binary first, otherwise the ClangCL binary first, and
return both results under their own candidate's field name.  `exec c k` is
the outcome of invoking candidate `c`'s binary as the `k`-th (0 or 1)
subprocess invocation of this paired trial, so the model records which binary
each result came from and in which position it ran. -/
def runBothTimed (coin : Bool) (exec : Candidate → ℕ → RunResult) : PairedRun :=
  if coin then
    { msvc := exec Candidate.msvc 0, clang := exec Candidate.clang 1 }
  else
    { clang := exec Candidate.clang 0, msvc := exec Candidate.msvc 1 }

/-- The measured loop of `benchStartupTime` (and of the two require
benchmarks), lines 116–120: for each measured paired trial, push
`msvc.durationMs` and `clang.durationMs` onto the respective sample arrays —
the exit status and output of the trial are never consulted. -/
def startupSamples (trials : List PairedRun) : List ℚ × List ℚ :=
  (trials.map fun t => t.msvc.durationMs, trials.map fun t => t.clang.durationMs)

/-- Replace the recorded exit status of a run result. -/
def withStatus (r : RunResult) (s : Option ℤ) : RunResult :=
  { r with status := s }

/-- The measured loop of the output-parsing benchmarks (for example
`benchBufferOps`, lines 294–300): parse each trial's stdout and push the
parsed value, dropping the trial when parsing fails.  `parse` abstracts
`parseFloat(stdout.trim())` with `none` standing for `NaN`. -/
def parsedSamples (parse : String → Option ℚ) (trials : List PairedRun) :
    List ℚ × List ℚ :=
  (trials.filterMap fun t => parse t.msvc.stdout,
   trials.filterMap fun t => parse t.clang.stdout)

/-- A trial that failed: it ran into the 60 000 ms timeout and was killed, or
exited with status 1, producing no output.  Used as a concrete input below. -/
def failedRun : RunResult :=
  { durationMs := 60000, stdout := "", stderr := "", status := some 1 }

/-! ### Invocation-boundary validation (source lines 9–17) -/

/-- The filesystem facts the harness could consult.  `existsSync` models
`fs.existsSync`; `executable` records whether the path is executable — the
source never reads it, which is exactly what claim C8 is about. -/
structure FileSystem where
  existsSync : String → Bool
  executable : String → Bool

/-- The top-level argument validation, lines 9–17: exactly two arguments are
required, then each path is checked with `fs.existsSync`, and the first
failure produces the corresponding error message (`path.resolve` is modelled
as the identity; it only normalises the spelling of the path). -/
def validateArgs (argv : List String) (fsys : FileSystem) :
    Except String (String × String) :=
  if argv.length ≠ 2 then
    Except.error "Usage: node benchmark_compare.js <path-to-msvc-binary> <path-to-clang-binary>"
  else
    let msvcBin := argv.getD 0 ""
    let clangBin := argv.getD 1 ""
    if fsys.existsSync msvcBin = false then
      Except.error ("MSVC binary not found: " ++ msvcBin)
    else if fsys.existsSync clangBin = false then
      Except.error ("ClangCL binary not found: " ++ clangBin)
    else
      Except.ok (msvcBin, clangBin)

/-- Process-level outcome of one harness invocation. -/
structure HarnessOutcome where
  exitCode : ℕ
  errMessage : Option String
  trialsRan : Bool
deriving DecidableEq, Repr

/-- The process-level control flow: a validation failure prints its message
and exits with status 1 before any benchmark runs; otherwise `main()` runs
and — because of `main().catch(console.error)` — even a thrown error is only
logged, leaving the exit status 0.  `mainThrows` says whether `main` threw
before reaching the measurement loops. -/
def runHarness (argv : List String) (fsys : FileSystem) (mainThrows : Bool) :
    HarnessOutcome :=
  match validateArgs argv fsys with
  | Except.error msg => { exitCode := 1, errMessage := some msg, trialsRan := false }
  | Except.ok _ => { exitCode := 0, errMessage := none, trialsRan := !mainThrows }

/-- A filesystem on which every path exists but nothing is executable. -/
def allExistNoneExecutable : FileSystem :=
  { existsSync := fun _ => true, executable := fun _ => false }

/-! ### Aggregator (`main`, source lines 727–741) -/

/-- The fields of a benchmark result row the summary loop reads: the two
summary values and the verdict string. -/
structure MetricRow where
  msvc : ℚ
  clang : ℚ
  winner : String
deriving DecidableEq, Repr

/-- The running totals of the summary loop. -/
structure Totals where
  msvcWins : ℕ
  clangWins : ℕ
  ties : ℕ
  msvcAdvantage : ℚ
  clangAdvantage : ℚ
deriving DecidableEq, Repr

/-- `const pct = r.msvc > 0 ? Math.abs(((r.clang - r.msvc) / r.msvc) * 100) : 0`:
the absolute percentage gap with candidate A's value as denominator, forced
to zero when that value is non-positive. -/
def gapOf (r : MetricRow) : ℚ :=
  if r.msvc > 0 then |((r.clang - r.msvc) / r.msvc) * 100| else 0

/-- One iteration of the summary loop: a row whose verdict string is exactly
`MSVC` counts a win and adds its gap for candidate A, one that is exactly
`ClangCL` does the same for candidate B, and every other verdict string
increments the tie counter. -/
def tallyStep (t : Totals) (r : MetricRow) : Totals :=
  if r.winner == "MSVC" then
    { t with msvcWins := t.msvcWins + 1, msvcAdvantage := t.msvcAdvantage + gapOf r }
  else if r.winner == "ClangCL" then
    { t with clangWins := t.clangWins + 1, clangAdvantage := t.clangAdvantage + gapOf r }
  else
    { t with ties := t.ties + 1 }

/-- The summary loop over all result rows, starting from zeroed totals. -/
def tally (rows : List MetricRow) : Totals :=
  rows.foldl tallyStep { msvcWins := 0, clangWins := 0, ties := 0,
                         msvcAdvantage := 0, clangAdvantage := 0 }

/-- Candidate A's share of the grand total of weighted advantage, as a
percentage; `50` when the grand total is zero (the source renders these
values with one decimal digit, which is presentation only). -/
def msvcShare (t : Totals) : ℚ :=
  if t.msvcAdvantage + t.clangAdvantage > 0 then
    t.msvcAdvantage / (t.msvcAdvantage + t.clangAdvantage) * 100
  else 50

/-- Candidate B's share of the grand total of weighted advantage. -/
def clangShare (t : Totals) : ℚ :=
  if t.msvcAdvantage + t.clangAdvantage > 0 then
    t.clangAdvantage / (t.msvcAdvantage + t.clangAdvantage) * 100
  else 50

/-- `overallWinner`: whichever candidate holds the strictly larger weighted
advantage; the tie verdict when the totals are equal. -/
def overallWinner (t : Totals) : String :=
  if t.msvcAdvantage > t.clangAdvantage then "MSVC"
  else if t.clangAdvantage > t.msvcAdvantage then "ClangCL"
  else "Tie"

/-- The spec's worked aggregator example: three metric rows whose winner/gap
pairs are (A, 5%), (B, 15%) and a tie. -/
def exampleRows : List MetricRow :=
  [ { msvc := 100, clang := 105, winner := "MSVC" },
    { msvc := 100, clang := 85, winner := "ClangCL" },
    { msvc := 100, clang := 100, winner := "Tie" } ]

/-! ### Spec-side definitions -/

/-- Modelled from the spec: the middle-element rule applied to an ascending
sort `s` of the samples — the middle element for odd length, the mean of the
two middle elements for even length (`getD` with an arbitrary default; every
index is in range for a non-empty list). -/
def specMedian (s : List ℚ) : ℚ :=
  if s.length % 2 = 1 then s.getD (s.length / 2) 0
  else (s.getD (s.length / 2 - 1) 0 + s.getD (s.length / 2) 0) / 2

/-- Modelled from the spec: the directional comparison rule outside the noise
gate — exact equality is a tie; otherwise, when lower values are better the
candidate with the smaller value wins, and when higher values are better the
candidate with the larger value wins. -/
def specDirectionalVerdict (a b : ℚ) (lowerIsBetter : Bool) : Verdict :=
  if a = b then Verdict.Tie
  else if lowerIsBetter then
    if a < b then Verdict.A else Verdict.B
  else
    if b < a then Verdict.A else Verdict.B

/-! ### Claim C3 -/

/-- Claim C3 (divergence witness): the statistics reductions do not fail on
violated preconditions — `median` and `mean` of an empty SampleSet and
`stddev` of a one-element SampleSet all evaluate to the IEEE `NaN`, and
`stddev` of an empty SampleSet even evaluates to an ordinary zero, so the
code silently returns a value instead of failing explicitly and
distinguishably. -/
theorem stats_silently_return_nan :
    median ([] : List ℚ) = JSVal.nan ∧
    mean ([] : List ℚ) = JSVal.nan ∧
    stddev [(5 : ℚ)] = JSVal.nan ∧
    stddev ([] : List ℚ) = JSVal.num 0 := by
  refine ⟨?_, ?_, ?_, ?_⟩
  · simp [median, medianOfSorted, List.insertionSort]
  · simp [mean]
  · norm_num [stddev, variance, mean, jsDiv0, jsSqrt]
  · norm_num [stddev, variance, mean, jsDiv0, jsSqrt, sumSqDev, Rat.sqrt]

/-! ### Claim C5 -/

/-- Claim C5: `pctDiff` always uses candidate A's value as the baseline —
its value is `(B − A) / A × 100` — and renders it with an explicit leading
plus sign exactly when the value is positive, two decimal places, and a
percent sign; in particular `pctDiff 100 110 = "+10.00%"` and
`pctDiff 100 90 = "-10.00%"`. -/
theorem pctDiff_spec (a b : ℚ) (_h : a ≠ 0) :
    pctDiff a b = specSignedPercent ((b - a) / a * 100) ∧
    pctDiff 100 110 = "+10.00%" ∧
    pctDiff 100 90 = "-10.00%" := by
  refine ⟨rfl, ?_, ?_⟩
  · have h1 : ((110 - 100) / 100 : ℚ) * 100 = 10 := by norm_num
    have h2 : ⌊(10 : ℚ) * 100 + 1 / 2⌋ = 1000 := by
      rw [Int.floor_eq_iff]; norm_num
    rw [pctDiff, h1, if_pos (by norm_num), toFixed2, if_neg (by norm_num), toFixed2Abs, h2]
    decide
  · have h1 : ((90 - 100) / 100 : ℚ) * 100 = -10 := by norm_num
    have h2 : ⌊(10 : ℚ) * 100 + 1 / 2⌋ = 1000 := by
      rw [Int.floor_eq_iff]; norm_num
    rw [pctDiff, h1, if_neg (by norm_num), toFixed2, if_pos (by norm_num)]
    norm_num [toFixed2Abs, h2]
    decide

/-- Witness for claim C5 at the concrete baseline 100 and value 110. -/
theorem pctDiff_spec_witness :
    (100 : ℚ) ≠ 0 ∧ pctDiff 100 110 = "+10.00%" :=
  ⟨by norm_num, (pctDiff_spec 100 110 (by norm_num)).2.1⟩

/-! ### Claim C7 -/

/-- Claim C7: whichever way the execution-order coin lands, the result pair
of `runBothTimed` attributes to each candidate the result of invoking that
candidate's own binary — the coin only decides the position (first or
second) in which each binary runs, never the attribution. -/
theorem runBothTimed_attribution (coin : Bool) (exec : Candidate → ℕ → RunResult) :
    (runBothTimed coin exec).msvc = exec Candidate.msvc (if coin then 0 else 1) ∧
    (runBothTimed coin exec).clang = exec Candidate.clang (if coin then 1 else 0) := by
  cases coin <;> simp [runBothTimed]

/-! ### Claim C4 -/

/-- Claim C4 is false on the code: in the measured loop of
`benchStartupTime` a trial whose subprocess timed out or exited non-zero
still contributes its wall-clock duration as an observation.  Concretely, a
single paired trial whose runs both exited with status 1 (after hitting the
60 000 ms timeout) yields the sample list `[60000]`, not `[]`. -/
theorem startup_sample_recorded_despite_failure :
    failedRun.status = some 1 ∧
    failedRun.status ≠ some 0 ∧
    (startupSamples [{ msvc := failedRun, clang := failedRun }]).1 = [60000] ∧
    (startupSamples [{ msvc := failedRun, clang := failedRun }]).2 = [60000] ∧
    (startupSamples [{ msvc := failedRun, clang := failedRun }]).1 ≠ ([] : List ℚ) := by
  refine ⟨rfl, by decide, rfl, rfl, by simp [startupSamples]⟩

/-- Claim C4 as amended: in the duration-based benchmarks the measured loop
records every trial's wall-clock duration — one observation per trial per
candidate, with the exit status never consulted, so timed-out and failing
trials are recorded rather than dropped; only the output-parsing benchmarks
drop a trial, namely when its captured output fails to parse. -/
theorem startup_samples_ignore_exit_status (trials : List PairedRun)
    (s1 s2 : Option ℤ) (parse : String → Option ℚ) :
    (startupSamples trials).1 = trials.map (fun t => t.msvc.durationMs) ∧
    (startupSamples trials).1.length = trials.length ∧
    (startupSamples trials).2.length = trials.length ∧
    startupSamples
        (trials.map fun t => { msvc := withStatus t.msvc s1, clang := withStatus t.clang s2 })
      = startupSamples trials ∧
    parsedSamples parse
        (trials.map fun t => { msvc := withStatus t.msvc s1, clang := withStatus t.clang s2 })
      = parsedSamples parse trials ∧
    parsedSamples (fun _ => none) [{ msvc := failedRun, clang := failedRun }]
      = (([] : List ℚ), ([] : List ℚ)) := by
  refine ⟨rfl, by simp [startupSamples], by simp [startupSamples], ?_, ?_, rfl⟩
  · simp [startupSamples, withStatus, List.map_map, Function.comp]
  · unfold parsedSamples withStatus
    simp only [List.filterMap_map]
    rfl

/-! ### Claim C8 -/

/-- Claim C8 is false on the code in one respect: validation checks only
`fs.existsSync`, never executability.  On a filesystem where both candidate
paths exist but neither is executable, validation succeeds, the process exit
code is 0, and the trials run. -/
theorem validation_ignores_executability :
    allExistNoneExecutable.executable "/bin/node_msvc" = false ∧
    allExistNoneExecutable.executable "/bin/node_clangcl" = false ∧
    validateArgs ["/bin/node_msvc", "/bin/node_clangcl"] allExistNoneExecutable
      = Except.ok ("/bin/node_msvc", "/bin/node_clangcl") ∧
    (runHarness ["/bin/node_msvc", "/bin/node_clangcl"] allExistNoneExecutable false).exitCode
      = 0 ∧
    (runHarness ["/bin/node_msvc", "/bin/node_clangcl"] allExistNoneExecutable false).trialsRan
      = true := by
  refine ⟨rfl, rfl, rfl, rfl, rfl⟩

/-- Claim C8 as amended: before any trial runs the harness validates that
both candidate paths exist (existence only — executability is not checked);
a missing path or a wrong argument count is a fatal validation error that
records an explicit message and exits with status 1, and no other failure is
fatal at the process level (an error thrown inside the run is caught and the
process still exits 0). -/
theorem validation_existence_only (argv : List String) (fsys : FileSystem)
    (mainThrows : Bool) (ex2 : String → Bool) :
    ((runHarness argv fsys mainThrows).exitCode ≠ 0 ↔
       ∃ msg, validateArgs argv fsys = Except.error msg) ∧
    ((runHarness argv fsys mainThrows).trialsRan = true ↔
       (∃ p, validateArgs argv fsys = Except.ok p) ∧ mainThrows = false) ∧
    ((∃ msg, validateArgs argv fsys = Except.error msg) ↔
       (argv.length ≠ 2 ∨ fsys.existsSync (argv.getD 0 "") = false ∨
         fsys.existsSync (argv.getD 1 "") = false)) ∧
    validateArgs argv { existsSync := fsys.existsSync, executable := ex2 }
      = validateArgs argv fsys ∧
    (∀ msg, validateArgs argv fsys = Except.error msg →
       (runHarness argv fsys mainThrows).errMessage = some msg) := by
  refine ⟨?_, ?_, ?_, rfl, ?_⟩
  · rcases h : validateArgs argv fsys with msg | p <;> simp [runHarness, h]
  · rcases h : validateArgs argv fsys with msg | p <;> simp [runHarness, h]
  · simp only [validateArgs]
    split_ifs with h2 hm hc <;> simp_all
  · intro msg h
    simp [runHarness, h]

/-- Witness for claim C8 at a concrete argument list and filesystem. -/
theorem validation_existence_only_witness :
    validateArgs ["/bin/a", "/bin/b"]
        { existsSync := fun _ => true, executable := fun _ => true }
      = validateArgs ["/bin/a", "/bin/b"]
        { existsSync := fun _ => true, executable := fun _ => false } :=
  (validation_existence_only ["/bin/a", "/bin/b"]
    { existsSync := fun _ => true, executable := fun _ => false } false
    (fun _ => true)).2.2.2.1

/-! ### Aggregation-loop lemmas shared by claims C2 and C10 -/

/-- The weighted advantage of candidate A accumulated by the summary loop is
the starting total plus the sum of the gaps of the rows candidate A won. -/
theorem foldl_tallyStep_msvcAdvantage (rows : List MetricRow) (t : Totals) :
    (rows.foldl tallyStep t).msvcAdvantage
      = t.msvcAdvantage + ((rows.filter fun r => r.winner == "MSVC").map gapOf).sum := by
  induction rows generalizing t with
  | nil => simp
  | cons r rs ih =>
    by_cases h1 : r.winner == "MSVC"
    · simp [tallyStep, h1, List.filter_cons, ih, add_assoc]
    · by_cases h2 : r.winner == "ClangCL" <;>
        simp [tallyStep, h1, h2, List.filter_cons, ih]

/-- The weighted advantage of candidate B accumulated by the summary loop is
the starting total plus the sum of the gaps of the rows candidate B won. -/
theorem foldl_tallyStep_clangAdvantage (rows : List MetricRow) (t : Totals) :
    (rows.foldl tallyStep t).clangAdvantage
      = t.clangAdvantage + ((rows.filter fun r => r.winner == "ClangCL").map gapOf).sum := by
  induction rows generalizing t with
  | nil => simp
  | cons r rs ih =>
    by_cases h1 : r.winner == "MSVC"
    · have h2 : (r.winner == "ClangCL") = false := by
        rcases eq_of_beq h1 with h
        simp [h]
      simp [tallyStep, h1, h2, List.filter_cons, ih]
    · by_cases h2 : r.winner == "ClangCL" <;>
        simp [tallyStep, h1, h2, List.filter_cons, ih, add_assoc]

/-- The tie counter of the summary loop counts exactly the rows whose verdict
string is neither exactly the candidate-A label nor exactly the candidate-B
label. -/
theorem foldl_tallyStep_ties (rows : List MetricRow) (t : Totals) :
    (rows.foldl tallyStep t).ties
      = t.ties + rows.countP (fun r => !(r.winner == "MSVC") && !(r.winner == "ClangCL")) := by
  induction rows generalizing t with
  | nil => simp
  | cons r rs ih =>
    by_cases h1 : r.winner == "MSVC"
    · simp [tallyStep, h1, List.countP_cons, ih]
    · by_cases h2 : r.winner == "ClangCL" <;>
        simp [tallyStep, h1, h2, List.countP_cons, ih, add_assoc, add_comm 1]

/-- Each summary-loop iteration increments exactly one of the three
counters, so the three counts always total the number of rows processed. -/
theorem foldl_tallyStep_counts (rows : List MetricRow) (t : Totals) :
    (rows.foldl tallyStep t).msvcWins + (rows.foldl tallyStep t).clangWins
        + (rows.foldl tallyStep t).ties
      = t.msvcWins + t.clangWins + t.ties + rows.length := by
  induction rows generalizing t with
  | nil => simp
  | cons r rs ih =>
    by_cases h1 : r.winner == "MSVC"
    · simp [tallyStep, h1, ih]
      ring
    · by_cases h2 : r.winner == "ClangCL" <;> simp [tallyStep, h1, h2, ih] <;> ring

/-- The summary loop on the spec's worked example: one win each, one tie,
weighted advantages 5 and 15. -/
theorem tally_exampleRows_eq :
    tally exampleRows
      = { msvcWins := 1, clangWins := 1, ties := 1,
          msvcAdvantage := 5, clangAdvantage := 15 } := by
  have g1 : gapOf { msvc := 100, clang := 105, winner := "MSVC" } = 5 := by
    norm_num [gapOf]
  have g2 : gapOf { msvc := 100, clang := 85, winner := "ClangCL" } = 15 := by
    rw [gapOf, if_pos (by norm_num)]
    norm_num [abs_of_nonpos]
  have d0 : (("MSVC" : String) == "MSVC") = true := by decide
  have d1 : (("ClangCL" : String) == "MSVC") = false := by decide
  have d2 : (("ClangCL" : String) == "ClangCL") = true := by decide
  have d3 : (("Tie" : String) == "MSVC") = false := by decide
  have d4 : (("Tie" : String) == "ClangCL") = false := by decide
  simp [tally, exampleRows, tallyStep, d0, d1, d2, d3, d4, g1, g2]

/-! ### Claim C1 -/

/-- Claim C1's worked example is false on the code: with `valueA = 100`,
`valueB = 105`, lower-is-better, and deviations 1 and 1, the gap 5 clears the
noise gate and the *smaller* value — candidate A — wins, so the adjudicator
returns A (the string `MSVC`), not B as the claim states. -/
theorem winner_example_goes_to_A :
    winner 100 105 true 1 1 = "MSVC" ∧
    toVerdict (winner 100 105 true 1 1) = Verdict.A ∧
    toVerdict (winner 100 105 true 1 1) ≠ Verdict.B := by
  have h : winner 100 105 true 1 1 = "MSVC" := by norm_num [winner]
  refine ⟨h, ?_, ?_⟩ <;> rw [h] <;> decide

/-- Claim C1 as amended: for all values, both directions, and non-negative
deviations, the adjudicator returns the tie verdict whenever the larger
deviation is positive and exceeds the observed gap; otherwise it follows the
directional rule (smaller value wins when lower is better, larger value wins
when higher is better, exact equality ties); and on the worked example
`(100, 105, lowerIsBetter, stdA = stdB = 1)` the verdict is A, not B. -/
theorem winner_noise_gate_and_direction (a b sa sb : ℚ) (lib : Bool)
    (_hsa : 0 ≤ sa) (_hsb : 0 ≤ sb) :
    (0 < max sa sb ∧ |a - b| < max sa sb →
       toVerdict (winner a b lib sa sb) = Verdict.Tie) ∧
    (¬(0 < max sa sb ∧ |a - b| < max sa sb) →
       toVerdict (winner a b lib sa sb) = specDirectionalVerdict a b lib) ∧
    toVerdict (winner 100 105 true 1 1) = Verdict.A := by
  refine ⟨?_, ?_, ?_⟩
  · intro hc
    have hgate : (sa > 0 ∨ sb > 0) ∧ |a - b| < max sa sb :=
      ⟨lt_max_iff.mp hc.1, hc.2⟩
    rw [winner, if_pos hgate]
    decide
  · intro hc
    have hgate : ¬((sa > 0 ∨ sb > 0) ∧ |a - b| < max sa sb) := fun hg =>
      hc ⟨lt_max_iff.mpr hg.1, hg.2⟩
    rw [winner, if_neg hgate, specDirectionalVerdict]
    rcases lt_trichotomy a b with h | h | h
    · cases lib <;> simp [h, h.ne, not_lt_of_gt h, toVerdict]
    · cases lib <;> simp [h, toVerdict]
    · cases lib <;> simp [h, h.ne', not_lt_of_gt h, toVerdict]
  · have h : winner 100 105 true 1 1 = "MSVC" := by norm_num [winner]
    rw [h]; decide

/-- Witness for claim C1 at the concrete worked example. -/
theorem winner_noise_gate_and_direction_witness :
    toVerdict (winner 100 105 true 1 1) = Verdict.A :=
  (winner_noise_gate_and_direction 100 105 1 1 true (by norm_num) (by norm_num)).2.2

/-! ### Claim C2 -/

/-- Claim C2: the aggregator credits each row's absolute percentage gap
(candidate A's value as denominator, zero when that value is non-positive)
to the winning candidate's weighted-advantage total, rows with any other
verdict string count only toward the tie counter, the two shares always
total 100% (each being its candidate's fraction of the grand total, or 50%
each when the grand total is zero), and on the spec's worked example the
advantages are 5 and 15, the shares 25% and 75%, and the overall verdict is
candidate B. -/
theorem tally_weighted_advantage_spec (rows : List MetricRow) (r : MetricRow) :
    (tally rows).msvcAdvantage
        = ((rows.filter fun x => x.winner == "MSVC").map gapOf).sum ∧
    (tally rows).clangAdvantage
        = ((rows.filter fun x => x.winner == "ClangCL").map gapOf).sum ∧
    (tally rows).ties
        = rows.countP (fun x => !(x.winner == "MSVC") && !(x.winner == "ClangCL")) ∧
    (r.msvc ≤ 0 → gapOf r = 0) ∧
    msvcShare (tally rows) + clangShare (tally rows) = 100 ∧
    (tally exampleRows).msvcAdvantage = 5 ∧
    (tally exampleRows).clangAdvantage = 15 ∧
    msvcShare (tally exampleRows) = 25 ∧
    clangShare (tally exampleRows) = 75 ∧
    overallWinner (tally exampleRows) = "ClangCL" := by
  refine ⟨?_, ?_, ?_, ?_, ?_, ?_, ?_, ?_, ?_, ?_⟩
  · simpa [tally] using foldl_tallyStep_msvcAdvantage rows
      { msvcWins := 0, clangWins := 0, ties := 0, msvcAdvantage := 0, clangAdvantage := 0 }
  · simpa [tally] using foldl_tallyStep_clangAdvantage rows
      { msvcWins := 0, clangWins := 0, ties := 0, msvcAdvantage := 0, clangAdvantage := 0 }
  · simpa [tally] using foldl_tallyStep_ties rows
      { msvcWins := 0, clangWins := 0, ties := 0, msvcAdvantage := 0, clangAdvantage := 0 }
  · intro h
    rw [gapOf, if_neg (not_lt.mpr h)]
  · by_cases ht : (tally rows).msvcAdvantage + (tally rows).clangAdvantage > 0
    · rw [msvcShare, clangShare, if_pos ht, if_pos ht]
      have hs : (tally rows).msvcAdvantage + (tally rows).clangAdvantage ≠ 0 :=
        ne_of_gt ht
      field_simp
      ring
    · rw [msvcShare, clangShare, if_neg ht, if_neg ht]
      norm_num
  · rw [tally_exampleRows_eq]
  · rw [tally_exampleRows_eq]
  · rw [tally_exampleRows_eq, msvcShare]
    norm_num
  · rw [tally_exampleRows_eq, clangShare]
    norm_num
  · rw [tally_exampleRows_eq, overallWinner]
    norm_num

/-- Witness for claim C2, extracting the worked example's A-advantage. -/
theorem tally_weighted_advantage_spec_witness :
    (tally exampleRows).msvcAdvantage = 5 :=
  (tally_weighted_advantage_spec exampleRows
    { msvc := 100, clang := 105, winner := "MSVC" }).2.2.2.2.2.1

/-! ### Claim C10 -/

/-- Claim C10: the aggregation loop counts as a tie every row whose verdict
string is not exactly the candidate-A label and not exactly the candidate-B
label — in particular both verdicts the adjudicator can produce for a tie,
the exact-equality string and the distinct noise-gate string — so the A
wins, B wins, and ties always partition the row count.  The adjudicator's
codomain is exactly those four strings. -/
theorem tally_counts_partition (rows : List MetricRow) :
    (tally rows).msvcWins + (tally rows).clangWins + (tally rows).ties = rows.length ∧
    (tally rows).ties
        = rows.countP (fun x => !(x.winner == "MSVC") && !(x.winner == "ClangCL")) ∧
    (∀ (a b sa sb : ℚ) (lib : Bool),
        winner a b lib sa sb = "MSVC" ∨ winner a b lib sa sb = "ClangCL" ∨
        winner a b lib sa sb = "Tie" ∨ winner a b lib sa sb = "~Tie") ∧
    (tally [{ msvc := 1, clang := 1, winner := "Tie" },
            { msvc := 1, clang := 1, winner := "~Tie" }]).ties = 2 := by
  refine ⟨?_, ?_, ?_, ?_⟩
  · simpa [tally] using foldl_tallyStep_counts rows
      { msvcWins := 0, clangWins := 0, ties := 0, msvcAdvantage := 0, clangAdvantage := 0 }
  · simpa [tally] using foldl_tallyStep_ties rows
      { msvcWins := 0, clangWins := 0, ties := 0, msvcAdvantage := 0, clangAdvantage := 0 }
  · intro a b sa sb lib
    unfold winner
    split_ifs <;>
      first
        | exact Or.inl rfl
        | exact Or.inr (Or.inl rfl)
        | exact Or.inr (Or.inr (Or.inl rfl))
        | exact Or.inr (Or.inr (Or.inr rfl))
  · have d1 : (("Tie" : String) == "MSVC") = false := by decide
    have d2 : (("Tie" : String) == "ClangCL") = false := by decide
    have d3 : (("~Tie" : String) == "MSVC") = false := by decide
    have d4 : (("~Tie" : String) == "ClangCL") = false := by decide
    simp [tally, tallyStep, d1, d2, d3, d4]

/-- Witness for claim C10: both tie-flavoured verdict strings of a two-row
list land in the tie counter. -/
theorem tally_counts_partition_witness :
    (tally [{ msvc := 1, clang := 1, winner := "Tie" },
            { msvc := 1, clang := 1, winner := "~Tie" }]).ties = 2 :=
  (tally_counts_partition []).2.2.2

/-! ### Sorting lemmas shared by claims C6 and C9 -/

/-- The sort used by `median` produces any ascending sorted permutation of
its input: sorted permutations over the rationals are unique. -/
theorem insertionSort_eq_of_sorted_perm (l s : List ℚ)
    (hs : s.Sorted (· ≤ ·)) (hp : l.Perm s) :
    List.insertionSort (· ≤ ·) l = s :=
  List.eq_of_perm_of_sorted ((List.perm_insertionSort _ l).trans hp)
    (List.sorted_insertionSort _ l) hs

/-- On a non-empty sorted list the middle-picking step of `median` returns an
ordinary number, namely the spec's middle-element rule. -/
theorem medianOfSorted_eq_specMedian (s : List ℚ) (h : s ≠ []) :
    medianOfSorted s = JSVal.num (specMedian s) := by
  have hn : 0 < s.length := List.length_pos.mpr h
  have hmid : s.length / 2 < s.length := Nat.div_lt_self hn one_lt_two
  have hmid1 : s.length / 2 - 1 < s.length := lt_of_le_of_lt (Nat.sub_le _ _) hmid
  by_cases hodd : s.length % 2 = 1
  · simp only [medianOfSorted, specMedian, if_pos hodd,
      List.getElem?_eq_getElem hmid, List.getD_eq_getElem?_getD]
    rfl
  · simp only [medianOfSorted, specMedian, if_neg hodd,
      List.getElem?_eq_getElem hmid, List.getElem?_eq_getElem hmid1,
      List.getD_eq_getElem?_getD]
    rfl

/-- On a non-empty sorted list whose elements all lie in `[lo, hi]`, the
middle-picking step of `median` returns a number in `[lo, hi]`. -/
theorem medianOfSorted_mem_bounds (s : List ℚ) (lo hi : ℚ) (hne : s ≠ [])
    (hlo : ∀ x ∈ s, lo ≤ x) (hhi : ∀ x ∈ s, x ≤ hi) :
    ∃ m, medianOfSorted s = JSVal.num m ∧ lo ≤ m ∧ m ≤ hi := by
  have hn : 0 < s.length := List.length_pos.mpr hne
  have hmid : s.length / 2 < s.length := Nat.div_lt_self hn one_lt_two
  have hmid1 : s.length / 2 - 1 < s.length := lt_of_le_of_lt (Nat.sub_le _ _) hmid
  by_cases hodd : s.length % 2 = 1
  · refine ⟨s[s.length / 2], ?_, hlo _ (List.getElem_mem hmid),
      hhi _ (List.getElem_mem hmid)⟩
    simp only [medianOfSorted, if_pos hodd, List.getElem?_eq_getElem hmid]
  · have hb1 : lo ≤ s[s.length / 2 - 1] := hlo _ (List.getElem_mem hmid1)
    have hb2 : s[s.length / 2 - 1] ≤ hi := hhi _ (List.getElem_mem hmid1)
    have hb3 : lo ≤ s[s.length / 2] := hlo _ (List.getElem_mem hmid)
    have hb4 : s[s.length / 2] ≤ hi := hhi _ (List.getElem_mem hmid)
    refine ⟨(s[s.length / 2 - 1] + s[s.length / 2]) / 2, ?_, by linarith, by linarith⟩
    simp only [medianOfSorted, if_neg hodd, List.getElem?_eq_getElem hmid,
      List.getElem?_eq_getElem hmid1]

/-- On a non-empty list whose elements all lie in `[lo, hi]`, `mean` returns
an ordinary number in `[lo, hi]`. -/
theorem mean_mem_bounds (l : List ℚ) (lo hi : ℚ) (hne : l ≠ [])
    (hlo : ∀ x ∈ l, lo ≤ x) (hhi : ∀ x ∈ l, x ≤ hi) :
    ∃ mu, mean l = JSVal.num mu ∧ lo ≤ mu ∧ mu ≤ hi := by
  have hn : 0 < l.length := List.length_pos.mpr hne
  have hq : (0 : ℚ) < l.length := by exact_mod_cast hn
  refine ⟨l.sum / l.length, ?_, ?_, ?_⟩
  · rw [mean, if_neg (Nat.pos_iff_ne_zero.mp hn)]
  · have hsum : (l.length : ℚ) * lo ≤ l.sum := by
      simpa [nsmul_eq_mul] using List.card_nsmul_le_sum l lo hlo
    rw [le_div_iff₀ hq]
    linarith
  · have hsum : l.sum ≤ (l.length : ℚ) * hi := by
      simpa [nsmul_eq_mul] using List.sum_le_card_nsmul l hi hhi
    rw [div_le_iff₀ hq]
    linarith

/-! ### Claim C6 -/

/-- Claim C6: on a non-empty SampleSet, `median` sorts ascending and returns
the middle element for an odd count and the mean of the two middle elements
for an even count — stated against any ascending sorted permutation `s` of
the input — and in particular `median [1,2,3,4] = 5/2` and
`median [1,2,3] = 2`. -/
theorem median_sorted_middle_spec (l s : List ℚ) (hne : l ≠ [])
    (hs : s.Sorted (· ≤ ·)) (hp : l.Perm s) :
    median l = JSVal.num (specMedian s) ∧
    median [1, 2, 3, 4] = JSVal.num (5 / 2) ∧
    median [1, 2, 3] = JSVal.num 2 := by
  refine ⟨?_, ?_, ?_⟩
  · have hsne : s ≠ [] := by
      intro h
      subst h
      exact hne (List.Perm.eq_nil hp)
    rw [median, insertionSort_eq_of_sorted_perm l s hs hp,
      medianOfSorted_eq_specMedian s hsne]
  · norm_num [median, medianOfSorted, List.insertionSort, List.orderedInsert]
  · norm_num [median, medianOfSorted, List.insertionSort, List.orderedInsert]

/-- Witness for claim C6 on the unsorted input `[1, 3, 2]` with its sorted
permutation `[1, 2, 3]`. -/
theorem median_sorted_middle_spec_witness :
    median [1, 3, 2] = JSVal.num (specMedian [1, 2, 3]) :=
  (median_sorted_middle_spec [1, 3, 2] [1, 2, 3] (by decide) (by decide) (by decide)).1

/-! ### Claim C9 -/

/-- Claim C9: on every non-empty SampleSet whose elements all lie in a closed
interval — in particular the interval from the sample minimum to the sample
maximum — both `median` and `mean` return ordinary numbers lying in that
interval. -/
theorem median_mean_within_bounds (l : List ℚ) (lo hi : ℚ) (hne : l ≠ [])
    (hlo : ∀ x ∈ l, lo ≤ x) (hhi : ∀ x ∈ l, x ≤ hi) :
    ∃ m mu, median l = JSVal.num m ∧ mean l = JSVal.num mu ∧
      lo ≤ m ∧ m ≤ hi ∧ lo ≤ mu ∧ mu ≤ hi := by
  have hperm : (List.insertionSort (· ≤ ·) l).Perm l := List.perm_insertionSort _ l
  have hsne : List.insertionSort (· ≤ ·) l ≠ [] := by
    intro h
    exact hne (List.Perm.eq_nil (h ▸ hperm).symm)
  obtain ⟨m, hm, hm1, hm2⟩ := medianOfSorted_mem_bounds (List.insertionSort (· ≤ ·) l)
    lo hi hsne (fun x hx => hlo x (hperm.mem_iff.mp hx))
    (fun x hx => hhi x (hperm.mem_iff.mp hx))
  obtain ⟨mu, hmu, hmu1, hmu2⟩ := mean_mem_bounds l lo hi hne hlo hhi
  exact ⟨m, mu, hm, hmu, hm1, hm2, hmu1, hmu2⟩

/-- Witness for claim C9 on the sample set `[1, 3, 2]` with bounds 1 and 3. -/
theorem median_mean_within_bounds_witness :
    ∃ m mu, median [1, 3, 2] = JSVal.num m ∧ mean [1, 3, 2] = JSVal.num mu ∧
      1 ≤ m ∧ m ≤ 3 ∧ 1 ≤ mu ∧ mu ≤ 3 :=
  median_mean_within_bounds [1, 3, 2] 1 3 (by decide) (by decide) (by decide)

end BenchmarkCompare
